import Mathlib

/-! Verification of the geometric instrument and stroke interaction engine of
an interactive teaching whiteboard.  The data model (strokes, instrument
widgets), the geometry kernel (local/world frame transforms, compass
landmarks), the snap resolver, the hit test, the store operations and the
pointer-event state machine are embedded from the application source
(`App.tsx`, the canvas utilities module, `types.ts`, `constants.ts`);
the theorems establish the specified invariants of selection, singleton
instruments, visibility, erasing, the stroke lifecycle and the compass
pivot-locked arc interaction.

Conventions of the embedding:
* canvas coordinates, angles and sizes are real numbers (the source uses
  IEEE doubles; claims about approximate identities are proved exactly on ℝ);
* `id` fields are natural numbers standing in for the source's uuid strings;
* optional object properties become `Option` fields; the JS test
  `v === false` becomes `v = some false`, and the JS defaulting idiom
  `v || d` (which also replaces a zero value by the default) is `orDefault`;
* `Math.hypot dx dy` is `Real.sqrt (dx ^ 2 + dy ^ 2)`;
* `Math.atan2 dy dx` scaled to degrees is `atan2deg`, via `Complex.arg`.
-/

namespace TeachOnline

/-- A point in world (canvas-pixel) coordinates (`types.ts`, `Point`). -/
@[ext]
structure Point where
  x : ℝ
  y : ℝ

/-- Stroke styles (`types.ts`, `StrokeStyle`). -/
inductive StrokeStyle
  | solid
  | dashed
  | dotted
  | marker
deriving DecidableEq

/-- A freehand stroke (`types.ts`, `Stroke`).  The discriminant
`type: 'stroke'` is represented by the `CanvasItem.stroke` constructor. -/
structure Stroke where
  id : ℕ
  points : List Point
  color : String
  width : ℝ
  strokeStyle : Option StrokeStyle

/-- The widget type tags of `types.ts` (`Widget.type`). -/
inductive WType
  | ruler
  | protractor
  | compass
  | triangle
  | image
  | text
deriving DecidableEq

/-- A positionable instrument or decoration (`types.ts`, `Widget`).
Optional TS properties are `Option` fields. -/
structure Widget where
  id : ℕ
  type : WType
  x : ℝ
  y : ℝ
  angle : ℝ
  scale : ℝ
  selected : Bool
  visible : Option Bool
  text : Option String
  src : Option String
  width : Option ℝ
  height : Option ℝ
  radius : Option ℝ
  drawAngle : Option ℝ

/-- `CanvasItem = Stroke | Widget` (`types.ts`), discriminated by `type`. -/
inductive CanvasItem
  | stroke (s : Stroke)
  | widget (w : Widget)

instance : Inhabited CanvasItem :=
  ⟨CanvasItem.stroke { id := 0, points := [], color := "", width := 0, strokeStyle := none }⟩

/-- The `id` property of an item. -/
def itemId : CanvasItem → ℕ
  | CanvasItem.stroke s => s.id
  | CanvasItem.widget w => w.id

/-- Reading the optional `visible` property through the TS cast
`(item as Widget).visible`: a stroke has no such property (`none`). -/
def visibleOf : CanvasItem → Option Bool
  | CanvasItem.stroke _ => none
  | CanvasItem.widget w => w.visible

/-- The TS object spread `{ ...i, selected: b }`.  On a widget it rewrites the
`selected` field; on a stroke it adds a property that the `Stroke` type does
not declare and nothing ever reads, so the model keeps the stroke unchanged. -/
def setSelected : CanvasItem → Bool → CanvasItem
  | CanvasItem.stroke s, _ => CanvasItem.stroke s
  | CanvasItem.widget w, b => CanvasItem.widget { w with selected := b }

/-- The TS spread `{ ...i, visible: b, selected: b }` used by the
`addWidget` singleton toggle (App.tsx line 378); on a stroke see
`setSelected`. -/
def setVisibleSelected : CanvasItem → Bool → CanvasItem
  | CanvasItem.stroke s, _ => CanvasItem.stroke s
  | CanvasItem.widget w, b => CanvasItem.widget { w with visible := some b, selected := b }

/-- The `selected` flag of an item; a stroke (whose type declares no such
field) counts as unselected. -/
def selectedOf : CanvasItem → Bool
  | CanvasItem.stroke _ => false
  | CanvasItem.widget w => w.selected

/-- `item.type === t` for a widget type tag `t`; false on strokes. -/
def isType (t : WType) : CanvasItem → Bool
  | CanvasItem.stroke _ => false
  | CanvasItem.widget w => decide (w.type = t)

/-- The JS defaulting idiom `v || d` on an optional numeric property:
`undefined` and `0` both fall back to the default. -/
noncomputable def orDefault (o : Option ℝ) (d : ℝ) : ℝ :=
  match o with
  | some v => if v = 0 then d else v
  | none => d

/-! ## Geometry kernel (canvas utilities lines 264-344) -/

/-- `convertLocalToWorld` (canvas utilities lines 336-344): rotate a local
point by `rad` and translate by the pivot `(cx, cy)`. -/
noncomputable def convertLocalToWorld (lx ly cx cy rad : ℝ) : Point :=
  ⟨lx * Real.cos rad - ly * Real.sin rad + cx,
   lx * Real.sin rad + ly * Real.cos rad + cy⟩

/-- The world-to-local transform of the snap resolver (canvas utilities lines
272-283): translate by `-pivot`, then rotate by `-rad` (the spec's
`worldToLocal`). -/
noncomputable def worldToLocal (wx wy cx cy rad : ℝ) : Point :=
  ⟨(wx - cx) * Real.cos (-rad) - (wy - cy) * Real.sin (-rad),
   (wx - cx) * Real.sin (-rad) + (wy - cy) * Real.cos (-rad)⟩

/-- The two leg-tip world positions of the compass. -/
structure CompassPoints where
  needle : Point
  pencil : Point

/-- `getCompassPoints` (canvas utilities lines 322-334): needle at local
`(-spread, height)`, pencil at local `(spread, height)`, with
`spread = 40` and `height = c.height || 150`. -/
noncomputable def getCompassPoints (c : Widget) : CompassPoints :=
  { needle := convertLocalToWorld (-(40 : ℝ)) (orDefault c.height 150) c.x c.y (c.angle * Real.pi / 180)
    pencil := convertLocalToWorld (40 : ℝ) (orDefault c.height 150) c.x c.y (c.angle * Real.pi / 180) }

/-- `Math.atan2 dy dx * 180 / Math.PI` (App.tsx lines 225, 230), via the
complex argument. -/
noncomputable def atan2deg (dy dx : ℝ) : ℝ :=
  Complex.arg ⟨dx, dy⟩ * 180 / Real.pi

/-! ## Round-trip helper lemmas for the frame transforms -/

/-- Going local → world → local is the identity (exact, on ℝ). -/
theorem worldToLocal_leftInv (lx ly cx cy rad : ℝ) :
    worldToLocal (convertLocalToWorld lx ly cx cy rad).x
      (convertLocalToWorld lx ly cx cy rad).y cx cy rad = ⟨lx, ly⟩ := by
  have h := Real.sin_sq_add_cos_sq rad
  simp only [convertLocalToWorld, worldToLocal, Real.cos_neg, Real.sin_neg]
  ext
  · linear_combination lx * h
  · linear_combination ly * h

/-- Going world → local → world is the identity (exact, on ℝ). -/
theorem worldToLocal_rightInv (wx wy cx cy rad : ℝ) :
    convertLocalToWorld (worldToLocal wx wy cx cy rad).x
      (worldToLocal wx wy cx cy rad).y cx cy rad = ⟨wx, wy⟩ := by
  have h := Real.sin_sq_add_cos_sq rad
  simp only [convertLocalToWorld, worldToLocal, Real.cos_neg, Real.sin_neg]
  ext
  · linear_combination (wx - cx) * h
  · linear_combination (wy - cy) * h

/-- C2: For every pivot `(cx, cy)`, angle `rad` and local point `(lx, ly)`,
applying the world-to-local transform to the result of the local-to-world
transform returns the local point (the round trip is exact on ℝ, hence within
any floating tolerance). -/
theorem roundTrip_local_world_local (lx ly cx cy rad : ℝ) :
    worldToLocal (convertLocalToWorld lx ly cx cy rad).x
      (convertLocalToWorld lx ly cx cy rad).y cx cy rad = ⟨lx, ly⟩ := by
  have h := Real.sin_sq_add_cos_sq rad
  simp only [convertLocalToWorld, worldToLocal, Real.cos_neg, Real.sin_neg]
  ext
  · linear_combination lx * h
  · linear_combination ly * h

/-! ## Compass arc interaction (App.tsx `handleMouseMove`, lines 218-278)

During a `compass_arc` right-drag, each pointer-move sample rotates the
compass about the locked needle pivot and appends the recomputed pencil tip
to the in-progress stroke.  `compassRotateWidget` is the store update of
lines 233-254, `compassPencilPoint` the stroke-point computation of lines
257-277; both take the already-computed `deltaAngle` of lines 222-231. -/

/-- App.tsx lines 236-251: set the compass angle to `angle + deltaAngle` and
re-derive the hinge position so that the needle tip stays at the pivot. -/
noncomputable def compassRotateWidget (w : Widget) (pivot : Point) (deltaAngle : ℝ) : Widget :=
  let newAngle := w.angle + deltaAngle
  let height := orDefault w.height 150
  let rad := newAngle * Real.pi / 180
  let vX := -(40 : ℝ) * Real.cos rad - height * Real.sin rad
  let vY := -(40 : ℝ) * Real.sin rad + height * Real.cos rad
  { w with angle := newAngle, x := pivot.x - vX, y := pivot.y - vY }

/-- App.tsx lines 259-275: the pencil tip (local `(spread, height)`) in world
coordinates after the same rotation, recomputed from the pivot. -/
noncomputable def compassPencilPoint (w : Widget) (pivot : Point) (deltaAngle : ℝ) : Point :=
  let newAngle := w.angle + deltaAngle
  let height := orDefault w.height 150
  let rad := newAngle * Real.pi / 180
  let vX := -(40 : ℝ) * Real.cos rad - height * Real.sin rad
  let vY := -(40 : ℝ) * Real.sin rad + height * Real.cos rad
  let newCx := pivot.x - vX
  let newCy := pivot.y - vY
  ⟨(40 : ℝ) * Real.cos rad - height * Real.sin rad + newCx,
   (40 : ℝ) * Real.sin rad + height * Real.cos rad + newCy⟩

/-- One pointer-move sample of the `compass_arc` drag: the angle step is the
`atan2` difference of lines 222-231, applied by `compassRotateWidget` and
`compassPencilPoint`.  Returns the updated widget and the stroke point
appended at this sample. -/
noncomputable def compassArcStep (w : Widget) (pivot last cur : Point) : Widget × Point :=
  let deltaAngle := atan2deg (cur.y - pivot.y) (cur.x - pivot.x)
    - atan2deg (last.y - pivot.y) (last.x - pivot.x)
  (compassRotateWidget w pivot deltaAngle, compassPencilPoint w pivot deltaAngle)

/-- The whole drag: the widget/point pair produced at each successive
pointer-move sample (the pivot stays locked for the drag, `lastPos` becomes
the previous sample). -/
noncomputable def compassArcRunStates (w : Widget) (pivot last : Point) :
    List Point → List (Widget × Point)
  | [] => []
  | m :: rest =>
    compassArcStep w pivot last m
      :: compassArcRunStates (compassArcStep w pivot last m).1 pivot m rest

/-- After a compass-arc update the needle tip (as `getCompassPoints` computes
it) is exactly the pivot: the hinge was re-derived to hold it fixed. -/
theorem compassRotate_needle (w : Widget) (pivot : Point) (deltaAngle : ℝ) :
    (getCompassPoints (compassRotateWidget w pivot deltaAngle)).needle = pivot := by
  simp only [getCompassPoints, compassRotateWidget, convertLocalToWorld]
  ext <;> ring

/-- The appended pencil point is at Euclidean distance `2 × spread = 80`
from the pivot. -/
theorem compassPencil_dist (w : Widget) (pivot : Point) (deltaAngle : ℝ) :
    Real.sqrt (((compassPencilPoint w pivot deltaAngle).x - pivot.x) ^ 2
      + ((compassPencilPoint w pivot deltaAngle).y - pivot.y) ^ 2) = 2 * 40 := by
  have h := Real.sin_sq_add_cos_sq ((w.angle + deltaAngle) * Real.pi / 180)
  have hsum : ((compassPencilPoint w pivot deltaAngle).x - pivot.x) ^ 2
      + ((compassPencilPoint w pivot deltaAngle).y - pivot.y) ^ 2 = 6400 := by
    simp only [compassPencilPoint]
    linear_combination (6400 : ℝ) * h
  rw [hsum, show (6400 : ℝ) = 80 ^ 2 by norm_num, Real.sqrt_sq (by norm_num : (0:ℝ) ≤ 80)]
  norm_num

/-- C1: During a `compass_arc` drag, at every intermediate pointer-move
sample the compass widget's stored `(x, y)` and `angle` are updated so that
the needle tip computed by `getCompassPoints` equals the pivot locked at drag
start, and each pencil-tip point appended to the in-progress stroke lies at
Euclidean distance exactly `2 × spread = 80` from that locked needle tip. -/
theorem compass_arc_pivot_lock (w : Widget) (pivot last : Point) (moves : List Point)
    (st : Widget × Point) (hst : st ∈ compassArcRunStates w pivot last moves) :
    (getCompassPoints st.1).needle = pivot ∧
    Real.sqrt ((st.2.x - pivot.x) ^ 2 + (st.2.y - pivot.y) ^ 2) = 2 * 40 := by
  induction moves generalizing w last with
  | nil => simp [compassArcRunStates] at hst
  | cons m rest ih =>
    simp only [compassArcRunStates, List.mem_cons] at hst
    rcases hst with h | h
    · subst h
      simp only [compassArcStep]
      exact ⟨compassRotate_needle .., compassPencil_dist ..⟩
    · exact ih _ _ h

/-- The compass widget created by the toolbar (App.tsx lines 400-412 with
`type = 'compass'`), used as a concrete input below. -/
def compassW : Widget :=
  { id := 3, type := WType.compass, x := 400, y := 300, angle := 0, scale := 1,
    selected := true, visible := some true, text := none, src := none,
    width := none, height := some 150, radius := none, drawAngle := none }

/-- Witness for C1 at a concrete drag: one pointer-move sample. -/
theorem compass_arc_pivot_lock_witness :
    (getCompassPoints (compassArcStep compassW ⟨0, 0⟩ ⟨1, 0⟩ ⟨0, 1⟩).1).needle = ⟨0, 0⟩ ∧
    Real.sqrt (((compassArcStep compassW ⟨0, 0⟩ ⟨1, 0⟩ ⟨0, 1⟩).2.x - (0:ℝ)) ^ 2
      + ((compassArcStep compassW ⟨0, 0⟩ ⟨1, 0⟩ ⟨0, 1⟩).2.y - (0:ℝ)) ^ 2) = 2 * 40 :=
  compass_arc_pivot_lock compassW ⟨0, 0⟩ ⟨1, 0⟩ [⟨0, 1⟩] _
    (by simp [compassArcRunStates])

/-! ## Snap resolver (canvas utilities `getSnapPoint`, lines 264-319) -/

/-- The ruler branch of the snap resolver (lines 286-298): with the cursor's
local point `lp`, if local X is within the widened span, snap to the top edge
`y = -h/2` (tested first) or the bottom edge `y = h/2` when within the
threshold, mapping back to world coordinates. -/
noncomputable def rulerSnap (lp : Point) (w h threshold cx cy rad : ℝ) : Option Point :=
  if -(w / 2) - threshold ≤ lp.x ∧ lp.x ≤ w / 2 + threshold then
    if |lp.y - (-(h / 2))| < threshold then
      some (convertLocalToWorld lp.x (-(h / 2)) cx cy rad)
    else if |lp.y - h / 2| < threshold then
      some (convertLocalToWorld lp.x (h / 2) cx cy rad)
    else none
  else none

/-- The set-square branch of the snap resolver (lines 302-315): snap to the
horizontal leg (`y = 0`, `x ∈ [0, w]` widened) or the vertical leg (`x = 0`,
`y ∈ [0, h]` widened). -/
noncomputable def triangleSnap (lp : Point) (w h threshold cx cy rad : ℝ) : Option Point :=
  if (0 - threshold ≤ lp.x ∧ lp.x ≤ w + threshold) ∧ |lp.y| < threshold then
    some (convertLocalToWorld lp.x 0 cx cy rad)
  else if (0 - threshold ≤ lp.y ∧ lp.y ≤ h + threshold) ∧ |lp.x| < threshold then
    some (convertLocalToWorld 0 lp.y cx cy rad)
  else none

/-- One loop iteration of `getSnapPoint` (lines 265-316): hidden widgets are
skipped, only rulers and triangles participate, the cursor is taken to the
widget's local frame and the per-shape edge test runs. -/
noncomputable def snapForItem (x y threshold : ℝ) : CanvasItem → Option Point
  | CanvasItem.stroke _ => none
  | CanvasItem.widget widget =>
    if widget.visible = some false then none
    else if widget.type = WType.ruler ∨ widget.type = WType.triangle then
      if widget.type = WType.ruler then
        rulerSnap (worldToLocal x y widget.x widget.y (widget.angle * Real.pi / 180))
          (orDefault widget.width 100) (orDefault widget.height 50) threshold
          widget.x widget.y (widget.angle * Real.pi / 180)
      else
        triangleSnap (worldToLocal x y widget.x widget.y (widget.angle * Real.pi / 180))
          (orDefault widget.width 100) (orDefault widget.height 50) threshold
          widget.x widget.y (widget.angle * Real.pi / 180)
    else none

/-- `getSnapPoint` (lines 264-319): first matching item in store order wins;
`null` when no widget qualifies.  Call sites pass the default
`threshold = 20`. -/
noncomputable def getSnapPoint (x y : ℝ) (items : List CanvasItem) (threshold : ℝ) :
    Option Point :=
  match items with
  | [] => none
  | item :: rest =>
    match snapForItem x y threshold item with
    | some p => some p
    | none => getSnapPoint x y rest threshold

theorem getSnapPoint_singleton (x y thr : ℝ) (i : CanvasItem) :
    getSnapPoint x y [i] thr = snapForItem x y thr i := by
  cases hsi : snapForItem x y thr i <;> simp [getSnapPoint, hsi]

theorem getSnapPoint_ruler_key (r : Widget) (x y thr : ℝ)
    (hr : r.type = WType.ruler) (hv : r.visible ≠ some false) :
    getSnapPoint x y [CanvasItem.widget r] thr =
      rulerSnap (worldToLocal x y r.x r.y (r.angle * Real.pi / 180))
        (orDefault r.width 100) (orDefault r.height 50) thr
        r.x r.y (r.angle * Real.pi / 180) := by
  rw [getSnapPoint_singleton]
  simp only [snapForItem]
  rw [if_neg hv, if_pos (Or.inl hr), if_pos hr]

/-- C3 (amended): For a visible ruler as the sole store item, `getSnapPoint`
returns a snap point iff the cursor's local X lies in
`[-width/2 - threshold, width/2 + threshold]` and the local Y is within the
threshold of the top edge `y = -height/2` or the bottom edge `y = height/2`;
the returned point is the local-to-world image of (the cursor's local X as
is — not clamped to the ruler's width — and the exact edge Y, the top edge
winning when both qualify).  A cursor exactly on the top edge within the
eligible X range snaps to that same point, and a cursor failing the test
yields `none`. -/
theorem getSnapPoint_ruler_edges (r : Widget) (x y thr : ℝ)
    (hr : r.type = WType.ruler) (hv : r.visible ≠ some false) (hthr : 0 < thr) :
    ((getSnapPoint x y [CanvasItem.widget r] thr).isSome ↔
      ((-(orDefault r.width 100 / 2) - thr
          ≤ (worldToLocal x y r.x r.y (r.angle * Real.pi / 180)).x ∧
        (worldToLocal x y r.x r.y (r.angle * Real.pi / 180)).x
          ≤ orDefault r.width 100 / 2 + thr) ∧
       (|(worldToLocal x y r.x r.y (r.angle * Real.pi / 180)).y
          - (-(orDefault r.height 50 / 2))| < thr ∨
        |(worldToLocal x y r.x r.y (r.angle * Real.pi / 180)).y
          - orDefault r.height 50 / 2| < thr))) ∧
    (∀ p, getSnapPoint x y [CanvasItem.widget r] thr = some p →
      p = convertLocalToWorld (worldToLocal x y r.x r.y (r.angle * Real.pi / 180)).x
        (if |(worldToLocal x y r.x r.y (r.angle * Real.pi / 180)).y
              - (-(orDefault r.height 50 / 2))| < thr
         then -(orDefault r.height 50 / 2) else orDefault r.height 50 / 2)
        r.x r.y (r.angle * Real.pi / 180)) ∧
    ((worldToLocal x y r.x r.y (r.angle * Real.pi / 180)).y
        = -(orDefault r.height 50 / 2) →
      (-(orDefault r.width 100 / 2) - thr
          ≤ (worldToLocal x y r.x r.y (r.angle * Real.pi / 180)).x ∧
        (worldToLocal x y r.x r.y (r.angle * Real.pi / 180)).x
          ≤ orDefault r.width 100 / 2 + thr) →
      getSnapPoint x y [CanvasItem.widget r] thr = some ⟨x, y⟩) ∧
    (¬ (((-(orDefault r.width 100 / 2) - thr
          ≤ (worldToLocal x y r.x r.y (r.angle * Real.pi / 180)).x ∧
        (worldToLocal x y r.x r.y (r.angle * Real.pi / 180)).x
          ≤ orDefault r.width 100 / 2 + thr)) ∧
       (|(worldToLocal x y r.x r.y (r.angle * Real.pi / 180)).y
          - (-(orDefault r.height 50 / 2))| < thr ∨
        |(worldToLocal x y r.x r.y (r.angle * Real.pi / 180)).y
          - orDefault r.height 50 / 2| < thr)) →
      getSnapPoint x y [CanvasItem.widget r] thr = none) := by
  rw [getSnapPoint_ruler_key r x y thr hr hv]
  refine ⟨?_, ?_, ?_, ?_⟩
  · unfold rulerSnap
    split_ifs with h1 h2 h3 <;> simp_all
  · unfold rulerSnap
    split_ifs with h1 h2 h3 <;> intro p hp <;> simp_all
  · intro hy hx
    unfold rulerSnap
    have htop : |(worldToLocal x y r.x r.y (r.angle * Real.pi / 180)).y
        - (-(orDefault r.height 50 / 2))| < thr := by
      rw [hy]
      simpa using hthr
    rw [if_pos hx, if_pos htop, ← hy, worldToLocal_rightInv]
  · intro hno
    unfold rulerSnap
    split_ifs with h1 h2 h3
    · exact absurd ⟨h1, Or.inl h2⟩ hno
    · exact absurd ⟨h1, Or.inr h3⟩ hno
    · rfl
    · rfl

/-- The ruler widget created by the toolbar (App.tsx lines 400-412 with
`type = 'ruler'`, default size 400 × 50) placed at the origin with angle 0,
used as a concrete input below. -/
def ruler0 : Widget :=
  { id := 1, type := WType.ruler, x := 0, y := 0, angle := 0, scale := 1,
    selected := false, visible := some true, text := none, src := none,
    width := some 400, height := some 50, radius := none, drawAngle := none }

theorem ruler0_snap_at_210 :
    getSnapPoint 210 (-25) [CanvasItem.widget ruler0] 20 = some ⟨210, -25⟩ := by
  rw [getSnapPoint_ruler_key ruler0 210 (-25) 20 rfl (by simp [ruler0])]
  have hrad : ruler0.angle * Real.pi / 180 = 0 := by simp [ruler0]
  have hlp : worldToLocal 210 (-25) ruler0.x ruler0.y (ruler0.angle * Real.pi / 180)
      = ⟨210, -25⟩ := by
    rw [hrad]
    simp [worldToLocal, ruler0]
  have hw : orDefault ruler0.width 100 = 400 := by norm_num [orDefault, ruler0]
  have hh : orDefault ruler0.height 50 = 50 := by norm_num [orDefault, ruler0]
  rw [hlp, hw, hh, hrad]
  unfold rulerSnap
  rw [if_pos (by norm_num), if_pos (by norm_num)]
  have hclw : convertLocalToWorld (Point.mk 210 (-25)).x (-(50 / 2 : ℝ))
      ruler0.x ruler0.y 0 = ⟨210, -25⟩ := by
    simp [convertLocalToWorld, ruler0]
    norm_num
  rw [hclw]

/-- Counterexample to C3 as stated: with the default ruler at the origin
(width 400), the cursor `(210, -25)` sits on the top edge but 10 units beyond
the ruler's half-width; the snap point keeps the raw local X = 210 instead of
clamping it to the ruler's span (which would give X = 200). -/
theorem getSnapPoint_ruler_no_clamp_cex :
    getSnapPoint 210 (-25) [CanvasItem.widget ruler0] 20 = some ⟨210, -25⟩ ∧
    getSnapPoint 210 (-25) [CanvasItem.widget ruler0] 20 ≠ some ⟨200, -25⟩ := by
  refine ⟨ruler0_snap_at_210, ?_⟩
  rw [ruler0_snap_at_210]
  intro hcontra
  have : (210 : ℝ) = 200 := congrArg Point.x (Option.some.inj hcontra)
  norm_num at this

/-- Witness for C3 (amended) at a concrete input: the default ruler at the
origin and the cursor `(0, -25)` exactly on its top edge. -/
theorem getSnapPoint_ruler_edges_witness :
    ((getSnapPoint 0 (-25) [CanvasItem.widget ruler0] 20).isSome ↔
      ((-(orDefault ruler0.width 100 / 2) - 20
          ≤ (worldToLocal 0 (-25) ruler0.x ruler0.y (ruler0.angle * Real.pi / 180)).x ∧
        (worldToLocal 0 (-25) ruler0.x ruler0.y (ruler0.angle * Real.pi / 180)).x
          ≤ orDefault ruler0.width 100 / 2 + 20) ∧
       (|(worldToLocal 0 (-25) ruler0.x ruler0.y (ruler0.angle * Real.pi / 180)).y
          - (-(orDefault ruler0.height 50 / 2))| < 20 ∨
        |(worldToLocal 0 (-25) ruler0.x ruler0.y (ruler0.angle * Real.pi / 180)).y
          - orDefault ruler0.height 50 / 2| < 20))) ∧
    (∀ p, getSnapPoint 0 (-25) [CanvasItem.widget ruler0] 20 = some p →
      p = convertLocalToWorld
        (worldToLocal 0 (-25) ruler0.x ruler0.y (ruler0.angle * Real.pi / 180)).x
        (if |(worldToLocal 0 (-25) ruler0.x ruler0.y (ruler0.angle * Real.pi / 180)).y
              - (-(orDefault ruler0.height 50 / 2))| < 20
         then -(orDefault ruler0.height 50 / 2) else orDefault ruler0.height 50 / 2)
        ruler0.x ruler0.y (ruler0.angle * Real.pi / 180)) ∧
    ((worldToLocal 0 (-25) ruler0.x ruler0.y (ruler0.angle * Real.pi / 180)).y
        = -(orDefault ruler0.height 50 / 2) →
      (-(orDefault ruler0.width 100 / 2) - 20
          ≤ (worldToLocal 0 (-25) ruler0.x ruler0.y (ruler0.angle * Real.pi / 180)).x ∧
        (worldToLocal 0 (-25) ruler0.x ruler0.y (ruler0.angle * Real.pi / 180)).x
          ≤ orDefault ruler0.width 100 / 2 + 20) →
      getSnapPoint 0 (-25) [CanvasItem.widget ruler0] 20 = some ⟨0, -25⟩) ∧
    (¬ (((-(orDefault ruler0.width 100 / 2) - 20
          ≤ (worldToLocal 0 (-25) ruler0.x ruler0.y (ruler0.angle * Real.pi / 180)).x ∧
        (worldToLocal 0 (-25) ruler0.x ruler0.y (ruler0.angle * Real.pi / 180)).x
          ≤ orDefault ruler0.width 100 / 2 + 20)) ∧
       (|(worldToLocal 0 (-25) ruler0.x ruler0.y (ruler0.angle * Real.pi / 180)).y
          - (-(orDefault ruler0.height 50 / 2))| < 20 ∨
        |(worldToLocal 0 (-25) ruler0.x ruler0.y (ruler0.angle * Real.pi / 180)).y
          - orDefault ruler0.height 50 / 2| < 20)) →
      getSnapPoint 0 (-25) [CanvasItem.widget ruler0] 20 = none) :=
  getSnapPoint_ruler_edges ruler0 0 (-25) 20 rfl (by simp [ruler0]) (by norm_num)

/-! ## Pointer-down hit test (App.tsx lines 133-141) -/

/-- The hit-test predicate of `handleMouseDown`: hidden items are skipped,
strokes are never candidates, a widget is hit when
`Math.hypot(cursor - pivot) < 100`. -/
noncomputable def hitTestPred (x y : ℝ) (item : CanvasItem) : Bool :=
  if visibleOf item = some false then false
  else match item with
    | CanvasItem.stroke _ => false
    | CanvasItem.widget w => decide (Real.sqrt ((x - w.x) ^ 2 + (y - w.y) ^ 2) < 100)

/-- `[...items].reverse().find(...)` (App.tsx line 134): scan in reverse
z-order so the topmost qualifying widget wins. -/
noncomputable def hitTest (x y : ℝ) (items : List CanvasItem) : Option CanvasItem :=
  items.reverse.find? (hitTestPred x y)

/-- C8: The pointer-down hit test returns the last (topmost in z-order)
visible widget whose pivot is within 100 units of the cursor, scanning the
store in reverse order; strokes are never candidates, so pointer-down over a
stroke with no qualifying widget selects nothing. -/
theorem hitTest_topmost (items : List CanvasItem) (x y : ℝ) :
    hitTest x y items = (items.filter (hitTestPred x y)).getLast? ∧
    (∀ s : Stroke, hitTest x y items ≠ some (CanvasItem.stroke s)) ∧
    (∀ i, hitTest x y items = some i →
      ∃ w : Widget, i = CanvasItem.widget w ∧ w.visible ≠ some false ∧
        Real.sqrt ((x - w.x) ^ 2 + (y - w.y) ^ 2) < 100) ∧
    ((∀ i ∈ items, hitTestPred x y i = false) → hitTest x y items = none) := by
  have hform : hitTest x y items = (items.filter (hitTestPred x y)).getLast? := by
    unfold hitTest
    rw [← List.filter_head? (hitTestPred x y) items.reverse,
      List.filter_reverse, List.head?_reverse]
  have hchar : ∀ i, hitTest x y items = some i →
      ∃ w : Widget, i = CanvasItem.widget w ∧ w.visible ≠ some false ∧
        Real.sqrt ((x - w.x) ^ 2 + (y - w.y) ^ 2) < 100 := by
    intro i hi
    have hp : hitTestPred x y i = true := List.find?_some hi
    cases i with
    | stroke s => simp [hitTestPred, visibleOf] at hp
    | widget w =>
      refine ⟨w, rfl, ?_, ?_⟩
      · intro hvis
        simp [hitTestPred, visibleOf, hvis] at hp
      · by_cases hvis : w.visible = some false
        · simp [hitTestPred, visibleOf, hvis] at hp
        · simpa [hitTestPred, visibleOf, hvis] using hp
  refine ⟨hform, ?_, hchar, ?_⟩
  · intro s hs
    rcases hchar _ hs with ⟨w, hw, -, -⟩
    exact CanvasItem.noConfusion hw
  · intro hall
    unfold hitTest
    rw [List.find?_eq_none]
    intro a ha hpa
    rw [hall a (List.mem_reverse.mp ha)] at hpa
    exact Bool.false_ne_true hpa

/-! ## Renderer visibility guard and eraser -/

/-- The visibility guard of `renderCanvas` (App.tsx lines 81-92): the items
the renderer draws are exactly the store items whose `visible` is not
`false`, in store order (each then dispatched to its type's draw routine). -/
def renderedItems (items : List CanvasItem) : List CanvasItem :=
  items.filter (fun i => !(decide (visibleOf i = some false)))

/-- The eraser branch of `handleMouseMove` (App.tsx lines 317-328): keep
hidden items, keep widgets, and keep a stroke iff none of its points is
within 20 units of the cursor. -/
noncomputable def eraseAt (items : List CanvasItem) (x y : ℝ) : List CanvasItem :=
  items.filter (fun item =>
    if visibleOf item = some false then true
    else match item with
      | CanvasItem.stroke s =>
          !(s.points.any (fun p => decide (Real.sqrt ((p.x - x) ^ 2 + (p.y - y) ^ 2) < 20)))
      | CanvasItem.widget _ => true)

/-- C7: An eraser-mode move at the cursor removes exactly the strokes having
a point within 20 units of it; everything else — widgets, hidden items and
far strokes — stays in the store, in order and unchanged. -/
theorem eraser_exact (items : List CanvasItem) (x y : ℝ) :
    (eraseAt items x y).Sublist items ∧
    ∀ i ∈ items, (i ∈ eraseAt items x y ↔
      ¬ ∃ s : Stroke, i = CanvasItem.stroke s ∧
          ∃ p ∈ s.points, Real.sqrt ((p.x - x) ^ 2 + (p.y - y) ^ 2) < 20) := by
  refine ⟨List.filter_sublist _, ?_⟩
  intro i hi
  rw [eraseAt, List.mem_filter]
  cases i with
  | stroke s => simp [hi, visibleOf, List.any_eq_true]
  | widget w => simp [hi, visibleOf]

theorem snapForItem_hidden (x y thr : ℝ) (hid : CanvasItem)
    (hhid : visibleOf hid = some false) : snapForItem x y thr hid = none := by
  cases hid with
  | stroke s => rfl
  | widget w =>
    simp only [visibleOf] at hhid
    simp [snapForItem, hhid]

theorem getSnapPoint_drop_hidden (x y thr : ℝ) (pre post : List CanvasItem)
    (hid : CanvasItem) (hhid : visibleOf hid = some false) :
    getSnapPoint x y (pre ++ hid :: post) thr = getSnapPoint x y (pre ++ post) thr := by
  induction pre with
  | nil =>
    simp only [List.nil_append]
    rw [getSnapPoint, snapForItem_hidden x y thr hid hhid]
  | cons a pre ih =>
    simp only [List.cons_append]
    rw [getSnapPoint, getSnapPoint]
    cases snapForItem x y thr a <;> simp [ih]

/-- C6: A widget with `visible = false` is never returned by the pointer-down
hit test, never contributes a snap point (removing it from the store does not
change `getSnapPoint`), and is not among the items the renderer draws — yet
erasing leaves it in the store (only explicit delete or clear-board removes
it). -/
theorem hidden_widget_soft_delete (x y cx cy thr : ℝ) (items pre post : List CanvasItem)
    (hid : CanvasItem) (hhid : visibleOf hid = some false) :
    hitTest x y (pre ++ hid :: post) ≠ some hid ∧
    getSnapPoint x y (pre ++ hid :: post) thr = getSnapPoint x y (pre ++ post) thr ∧
    hid ∉ renderedItems items ∧
    (hid ∈ items → hid ∈ eraseAt items cx cy) := by
  refine ⟨?_, getSnapPoint_drop_hidden x y thr pre post hid hhid, ?_, ?_⟩
  · intro hsome
    have hp : hitTestPred x y hid = true := List.find?_some hsome
    simp [hitTestPred, hhid] at hp
  · simp [renderedItems, List.mem_filter, hhid]
  · intro hmem
    rw [eraseAt, List.mem_filter]
    exact ⟨hmem, by simp [hhid]⟩

/-- The hidden ruler used as a concrete witness input below. -/
def hiddenRuler : Widget := { ruler0 with visible := some false }

/-- Witness for C6 at a concrete input: a hidden ruler alone in the store. -/
theorem hidden_widget_soft_delete_witness :
    hitTest 0 0 ([] ++ CanvasItem.widget hiddenRuler :: []) ≠ some (CanvasItem.widget hiddenRuler) ∧
    getSnapPoint 0 0 ([] ++ CanvasItem.widget hiddenRuler :: []) 20 = getSnapPoint 0 0 ([] ++ []) 20 ∧
    CanvasItem.widget hiddenRuler ∉ renderedItems [CanvasItem.widget hiddenRuler] ∧
    (CanvasItem.widget hiddenRuler ∈ [CanvasItem.widget hiddenRuler] →
      CanvasItem.widget hiddenRuler ∈ eraseAt [CanvasItem.widget hiddenRuler] 0 0) :=
  hidden_widget_soft_delete 0 0 0 0 20 [CanvasItem.widget hiddenRuler] [] []
    (CanvasItem.widget hiddenRuler) (by simp [visibleOf, hiddenRuler])

/-! ## Item store operations (App.tsx) -/

/-- `prev.map(i => ({ ...i, selected: i.id === target }))` — exclusive
selection on pointer-down hit (line 145) and in the layer panel (line 659). -/
def selectOnly (items : List CanvasItem) (target : ℕ) : List CanvasItem :=
  items.map (fun i => setSelected i (decide (itemId i = target)))

/-- `prev.map(i => ({ ...i, selected: false }))` — clearing the selection on
a pointer-down miss (line 178). -/
def deselectAll (items : List CanvasItem) : List CanvasItem :=
  items.map (fun i => setSelected i false)

/-- How many items are selected. -/
def countSelected (items : List CanvasItem) : ℕ :=
  items.countP (fun i => selectedOf i)

/-- `Array.findIndex` (App.tsx line 371): index of the first item satisfying
the predicate (`none` models the TS sentinel `-1`). -/
def findIndex (p : CanvasItem → Bool) : List CanvasItem → Option ℕ
  | [] => none
  | i :: rest => if p i then some 0 else (findIndex p rest).map (· + 1)

/-- The indexed map of the singleton toggle (App.tsx lines 376-381): the item
at `idx` gets `visible := b, selected := b`, every other item is deselected. -/
def toggleAt (items : List CanvasItem) (idx : ℕ) (b : Bool) : List CanvasItem :=
  match items, idx with
  | [], _ => []
  | i :: rest, 0 => setVisibleSelected i b :: deselectAll rest
  | i :: rest, n + 1 => setSelected i false :: toggleAt rest n b

/-- The widget literal of `addWidget` (App.tsx lines 400-412), with the
type-specific defaults of `constants.ts` (`TOOL_DEFAULTS`). -/
def newWidget (t : WType) (newId : ℕ) (cx cy : ℝ) : Widget :=
  { id := newId, type := t, x := cx, y := cy, angle := 0, scale := 1,
    selected := true, visible := some true, text := none, src := none,
    width := if t = WType.ruler then some 400
      else if t = WType.triangle then some 200 else none,
    height := if t = WType.ruler then some 50
      else if t = WType.triangle then some 200
      else if t = WType.compass then some 150 else none,
    radius := if t = WType.protractor then some 100 else none,
    drawAngle := none }

/-- The standard creation path of `addWidget` (App.tsx lines 414-416):
deselect everything and append the new widget, selected. -/
def createWidget (items : List CanvasItem) (t : WType) (newId : ℕ) (cx cy : ℝ) :
    List CanvasItem :=
  deselectAll items ++ [CanvasItem.widget (newWidget t newId cx cy)]

/-- `addWidget` (App.tsx lines 367-417): for the four singleton instrument
types, an existing widget of that type is toggled
(`visible := (existing.visible === false)`, likewise `selected`) instead of
creating a duplicate; otherwise the standard creation path runs. -/
def addWidget (items : List CanvasItem) (t : WType) (newId : ℕ) (cx cy : ℝ) :
    List CanvasItem :=
  if t = WType.ruler ∨ t = WType.protractor ∨ t = WType.triangle ∨ t = WType.compass then
    match findIndex (fun i => isType t i) items with
    | some existingIndex =>
      toggleAt items existingIndex
        (decide (visibleOf (items.getD existingIndex default) = some false))
    | none => createWidget items t newId cx cy
  else createWidget items t newId cx cy

/-- The image widget built by the clipboard paste handler
(`handleCanvasPaste`, App.tsx lines 457-469): appended with
`selected: true` and `scale: 0.5`. -/
def pasteWidget (newId : ℕ) (cx cy : ℝ) (source : String) (iw ih : ℝ) : Widget :=
  { id := newId, type := WType.image, x := cx, y := cy, angle := 0, scale := 0.5,
    selected := true, visible := some true, text := none, src := some source,
    width := some iw, height := some ih, radius := none, drawAngle := none }

/-- The image widget built by the TikZ diagram injection
(`handleGenerateTikz`, App.tsx lines 549-561): appended with
`selected: true` and `scale: 1`. -/
def tikzWidget (newId : ℕ) (cx cy : ℝ) (source : String) (iw ih : ℝ) : Widget :=
  { id := newId, type := WType.image, x := cx, y := cy, angle := 0, scale := 1,
    selected := true, visible := some true, text := none, src := some source,
    width := some iw, height := some ih, radius := none, drawAngle := none }

/-- `setItems(prev => [...prev, widget])` — how both the clipboard paste
(line 470) and the TikZ injection (line 562) add their image widget: a plain
append, with no deselection of the existing items. -/
def appendWidget (items : List CanvasItem) (w : Widget) : List CanvasItem :=
  items ++ [CanvasItem.widget w]

/-- `deleteItem` (App.tsx lines 428-430). -/
def deleteItemOp (items : List CanvasItem) (target : ℕ) : List CanvasItem :=
  items.filter (fun i => !(decide (itemId i = target)))

/-- `toggleVisibility` (App.tsx lines 419-426): `visible: !(i as Widget).visible`
with JS negation (`!undefined = true`); on a stroke the spread adds a field
the `Stroke` type does not declare, so the model keeps the stroke unchanged. -/
def toggleVisibilityOp (items : List CanvasItem) (target : ℕ) : List CanvasItem :=
  items.map (fun i =>
    if itemId i = target then
      match i with
      | CanvasItem.stroke s => CanvasItem.stroke s
      | CanvasItem.widget w =>
          CanvasItem.widget
            { w with visible := some (match w.visible with | some b => !b | none => true) }
    else i)

/-- `drawTextWidget` (canvas utilities lines 244-260): nothing is drawn when
the `text` property is absent or empty (JS falsy, `if (!t.text) return`);
otherwise the text is filled at the widget's transformed origin.  The model
returns the drawn text and position, `none` when nothing is drawn. -/
def drawTextWidget (t : Widget) : Option (String × ℝ × ℝ) :=
  match t.text with
  | none => none
  | some s => if s = "" then none else some (s, t.x, t.y)

/-! ## Selection-count and type-count lemmas -/

theorem countSelected_nil : countSelected [] = 0 := rfl

theorem countSelected_cons (i : CanvasItem) (items : List CanvasItem) :
    countSelected (i :: items) = countSelected items + if selectedOf i then 1 else 0 :=
  List.countP_cons _ i items

theorem selectedOf_setSelected_stroke (s : Stroke) (b : Bool) :
    selectedOf (setSelected (CanvasItem.stroke s) b) = false := rfl

theorem selectedOf_setSelected_widget (w : Widget) (b : Bool) :
    selectedOf (setSelected (CanvasItem.widget w) b) = b := rfl

theorem countSelected_deselectAll (items : List CanvasItem) :
    countSelected (deselectAll items) = 0 := by
  induction items with
  | nil => rfl
  | cons i rest ih =>
    show countSelected (setSelected i false :: deselectAll rest) = 0
    rw [countSelected_cons, ih]
    cases i <;> rfl

theorem countSelected_selectOnly_zero (items : List CanvasItem) (target : ℕ)
    (h : ∀ j ∈ items, itemId j ≠ target) :
    countSelected (selectOnly items target) = 0 := by
  induction items with
  | nil => rfl
  | cons i rest ih =>
    show countSelected (setSelected i (decide (itemId i = target)) :: selectOnly rest target) = 0
    rw [countSelected_cons, ih (fun j hj => h j (List.mem_cons_of_mem _ hj))]
    have hd : decide (itemId i = target) = false := by
      simp [h i (List.mem_cons_self _ _)]
    cases i <;> simp [selectedOf_setSelected_stroke, selectedOf_setSelected_widget, hd]

theorem countSelected_selectOnly_le (items : List CanvasItem) (target : ℕ)
    (hnodup : (items.map itemId).Nodup) :
    countSelected (selectOnly items target) ≤ 1 := by
  induction items with
  | nil => simp [countSelected_nil, selectOnly]
  | cons i rest ih =>
    rw [List.map_cons, List.nodup_cons] at hnodup
    obtain ⟨hni, hnrest⟩ := hnodup
    show countSelected (setSelected i (decide (itemId i = target)) :: selectOnly rest target) ≤ 1
    rw [countSelected_cons]
    by_cases hit : itemId i = target
    · have hzero : countSelected (selectOnly rest target) = 0 := by
        apply countSelected_selectOnly_zero
        intro j hj hjt
        apply hni
        have hmem : itemId j ∈ rest.map itemId := List.mem_map_of_mem itemId hj
        rwa [hjt, ← hit] at hmem
      rw [hzero]
      split <;> omega
    · have hd : decide (itemId i = target) = false := by simp [hit]
      have hrest := ih hnrest
      cases i <;> simp [selectedOf_setSelected_stroke, selectedOf_setSelected_widget, hd] <;>
        omega

theorem countSelected_toggleAt (items : List CanvasItem) (idx : ℕ) (b : Bool) :
    countSelected (toggleAt items idx b) ≤ 1 := by
  induction items generalizing idx with
  | nil => simp [toggleAt, countSelected_nil]
  | cons i rest ih =>
    cases idx with
    | zero =>
      show countSelected (setVisibleSelected i b :: deselectAll rest) ≤ 1
      rw [countSelected_cons, countSelected_deselectAll]
      cases i with
      | stroke s => simp [setVisibleSelected, selectedOf]
      | widget w =>
        simp only [setVisibleSelected, selectedOf]
        split <;> omega
    | succ n =>
      show countSelected (setSelected i false :: toggleAt rest n b) ≤ 1
      rw [countSelected_cons]
      have := ih n
      cases i <;>
        simp [selectedOf_setSelected_stroke, selectedOf_setSelected_widget] <;> omega

theorem countSelected_createWidget (items : List CanvasItem) (t : WType) (newId : ℕ)
    (cx cy : ℝ) : countSelected (createWidget items t newId cx cy) = 1 := by
  unfold createWidget countSelected
  rw [List.countP_append]
  have h1 := countSelected_deselectAll items
  unfold countSelected at h1
  rw [h1]
  rfl

/-- C4 (amended): After exclusive selection on pointer-down hit (with
pairwise distinct item ids), after a pointer-down miss, and after any
`addWidget` invocation (singleton toggle or creation), at most one item in
the store has `selected = true`.  (The clipboard paste and the TikZ
diagram injection, by contrast, append a selected image widget without
deselecting the rest and so can leave two selected items — see the
counterexample.) -/
theorem selection_exclusive_ops (items : List CanvasItem) (target newId : ℕ)
    (cx cy : ℝ) (t : WType) (hnodup : (items.map itemId).Nodup) :
    countSelected (selectOnly items target) ≤ 1 ∧
    countSelected (deselectAll items) = 0 ∧
    countSelected (addWidget items t newId cx cy) ≤ 1 := by
  refine ⟨countSelected_selectOnly_le items target hnodup,
    countSelected_deselectAll items, ?_⟩
  unfold addWidget
  split_ifs with hsing
  · cases hfi : findIndex (fun i => isType t i) items with
    | some idx => exact countSelected_toggleAt items idx _
    | none => exact (countSelected_createWidget items t newId cx cy).le
  · exact (countSelected_createWidget items t newId cx cy).le

/-- Counterexample to C4 as stated: pasting an image onto a board that
already has a selected widget leaves two items selected — the paste handler
appends its widget with `selected: true` without deselecting the others. -/
theorem paste_double_selection_cex :
    ¬ countSelected (appendWidget [CanvasItem.widget compassW]
        (pasteWidget 7 300 300 "pasted" 100 100)) ≤ 1 := by
  have h2 : countSelected (appendWidget [CanvasItem.widget compassW]
      (pasteWidget 7 300 300 "pasted" 100 100)) = 2 := rfl
  rw [h2]
  norm_num

/-- Witness for C4 (amended) at a concrete input: a one-widget store. -/
theorem selection_exclusive_ops_witness :
    countSelected (selectOnly [CanvasItem.widget compassW] 3) ≤ 1 ∧
    countSelected (deselectAll [CanvasItem.widget compassW]) = 0 ∧
    countSelected (addWidget [CanvasItem.widget compassW] WType.compass 9 400 300) ≤ 1 :=
  selection_exclusive_ops [CanvasItem.widget compassW] 3 9 400 300 WType.compass
    (by simp [itemId])

/-! ## Singleton-instrument lemmas -/

/-- How many items of widget type `t` the store holds. -/
def countType (t : WType) (items : List CanvasItem) : ℕ :=
  items.countP (fun i => isType t i)

theorem countType_cons (t : WType) (i : CanvasItem) (items : List CanvasItem) :
    countType t (i :: items) = countType t items + if isType t i then 1 else 0 :=
  List.countP_cons _ i items

theorem isType_setSelected (t : WType) (i : CanvasItem) (b : Bool) :
    isType t (setSelected i b) = isType t i := by
  cases i <;> rfl

theorem isType_setVisibleSelected (t : WType) (i : CanvasItem) (b : Bool) :
    isType t (setVisibleSelected i b) = isType t i := by
  cases i <;> rfl

theorem countType_deselectAll (t : WType) (items : List CanvasItem) :
    countType t (deselectAll items) = countType t items := by
  induction items with
  | nil => rfl
  | cons i rest ih =>
    show countType t (setSelected i false :: deselectAll rest) = _
    rw [countType_cons, ih, isType_setSelected, countType_cons]

theorem countType_toggleAt (t : WType) (items : List CanvasItem) (idx : ℕ) (b : Bool) :
    countType t (toggleAt items idx b) = countType t items := by
  induction items generalizing idx with
  | nil => rfl
  | cons i rest ih =>
    cases idx with
    | zero =>
      show countType t (setVisibleSelected i b :: deselectAll rest) = _
      rw [countType_cons, countType_deselectAll, isType_setVisibleSelected, countType_cons]
    | succ n =>
      show countType t (setSelected i false :: toggleAt rest n b) = _
      rw [countType_cons, ih n, isType_setSelected, countType_cons]

theorem length_toggleAt (items : List CanvasItem) (idx : ℕ) (b : Bool) :
    (toggleAt items idx b).length = items.length := by
  induction items generalizing idx with
  | nil => rfl
  | cons i rest ih =>
    cases idx with
    | zero =>
      show (setVisibleSelected i b :: deselectAll rest).length = _
      simp [deselectAll]
    | succ n =>
      show (setSelected i false :: toggleAt rest n b).length = _
      simp [ih n]

theorem findIndex_none (p : CanvasItem → Bool) (items : List CanvasItem)
    (h : findIndex p items = none) : ∀ i ∈ items, p i = false := by
  induction items with
  | nil => intro i hi; cases hi
  | cons i rest ih =>
    rw [findIndex] at h
    intro j hj
    by_cases hp : p i
    · rw [if_pos hp] at h; cases h
    · rw [if_neg hp] at h
      rcases List.mem_cons.mp hj with rfl | hjr
      · exact Bool.eq_false_iff.mpr hp
      · exact ih (by cases hfi : findIndex p rest <;> simp [hfi] at h ⊢) j hjr

theorem findIndex_some_lt (p : CanvasItem → Bool) (items : List CanvasItem) (idx : ℕ)
    (h : findIndex p items = some idx) : idx < items.length := by
  induction items generalizing idx with
  | nil => cases h
  | cons i rest ih =>
    rw [findIndex] at h
    by_cases hp : p i
    · rw [if_pos hp] at h
      cases h
      simp
    · rw [if_neg hp] at h
      cases hfi : findIndex p rest with
      | none => rw [hfi] at h; cases h
      | some m =>
        rw [hfi] at h
        simp only [Option.map_some'] at h
        cases h
        have := ih m hfi
        simpa using Nat.succ_lt_succ this

theorem findIndex_some_getD (p : CanvasItem → Bool) (items : List CanvasItem) (idx : ℕ)
    (h : findIndex p items = some idx) : p (items.getD idx default) = true := by
  induction items generalizing idx with
  | nil => cases h
  | cons i rest ih =>
    rw [findIndex] at h
    by_cases hp : p i
    · rw [if_pos hp] at h
      cases h
      simpa using hp
    · rw [if_neg hp] at h
      cases hfi : findIndex p rest with
      | none => rw [hfi] at h; cases h
      | some m =>
        rw [hfi] at h
        simp only [Option.map_some'] at h
        cases h
        simpa using ih m hfi

theorem getD_toggleAt (items : List CanvasItem) (idx : ℕ) (b : Bool)
    (hlt : idx < items.length) :
    (toggleAt items idx b).getD idx default
      = setVisibleSelected (items.getD idx default) b := by
  induction items generalizing idx with
  | nil => cases hlt
  | cons i rest ih =>
    cases idx with
    | zero => rfl
    | succ n =>
      show (setSelected i false :: toggleAt rest n b).getD (n + 1) default = _
      simpa using ih n (by simpa using Nat.lt_of_succ_lt_succ hlt)

theorem countType_createWidget (t : WType) (items : List CanvasItem) (newId : ℕ)
    (cx cy : ℝ) : countType t (createWidget items t newId cx cy) = countType t items + 1 := by
  unfold createWidget countType
  rw [List.countP_append]
  have h1 := countType_deselectAll t items
  unfold countType at h1
  rw [h1]
  have h2 : isType t (CanvasItem.widget (newWidget t newId cx cy)) = true := by
    simp [isType, newWidget]
  simp [h2]

/-- C5: For each singleton instrument type (ruler, protractor, triangle,
compass), `addWidget` never grows the count of widgets of that type beyond
one: when one already exists (first index `idx`), the invocation keeps the
store length (no item is added) and toggles the existing widget's `visible`
flag to `existing.visible === false`, instead of adding a new item. -/
theorem addWidget_singleton (items : List CanvasItem) (t : WType) (newId : ℕ) (cx cy : ℝ)
    (ht : t = WType.ruler ∨ t = WType.protractor ∨ t = WType.triangle ∨ t = WType.compass) :
    countType t (addWidget items t newId cx cy) ≤ max (countType t items) 1 ∧
    (∀ idx, findIndex (fun i => isType t i) items = some idx →
      (addWidget items t newId cx cy).length = items.length ∧
      countType t (addWidget items t newId cx cy) = countType t items ∧
      visibleOf ((addWidget items t newId cx cy).getD idx default)
        = some (decide (visibleOf (items.getD idx default) = some false))) := by
  unfold addWidget
  rw [if_pos ht]
  cases hfi : findIndex (fun i => isType t i) items with
  | some idx =>
    refine ⟨?_, ?_⟩
    · rw [countType_toggleAt]
      exact le_max_left _ _
    · intro idx2 hidx2
      cases hidx2
      refine ⟨length_toggleAt items idx _, by rw [countType_toggleAt], ?_⟩
      rw [getD_toggleAt items idx _ (findIndex_some_lt _ items idx hfi)]
      have hw := findIndex_some_getD (fun i => isType t i) items idx hfi
      cases hgd : items.getD idx default with
      | stroke s => rw [hgd] at hw; simp [isType] at hw
      | widget w => rw [hgd] at hw; rfl
  | none =>
    refine ⟨?_, ?_⟩
    · have hzero : countType t items = 0 := by
        unfold countType
        rw [List.countP_eq_zero]
        intro i hi
        simp [findIndex_none _ items hfi i hi]
      rw [countType_createWidget, hzero]
      simp
    · intro idx2 hidx2
      cases hidx2

/-- Witness for C5 at a concrete input: a store already holding the compass,
toggled again. -/
theorem addWidget_singleton_witness :
    countType WType.compass (addWidget [CanvasItem.widget compassW] WType.compass 9 400 300)
      ≤ max (countType WType.compass [CanvasItem.widget compassW]) 1 ∧
    (∀ idx, findIndex (fun i => isType WType.compass i) [CanvasItem.widget compassW] = some idx →
      (addWidget [CanvasItem.widget compassW] WType.compass 9 400 300).length
        = [CanvasItem.widget compassW].length ∧
      countType WType.compass (addWidget [CanvasItem.widget compassW] WType.compass 9 400 300)
        = countType WType.compass [CanvasItem.widget compassW] ∧
      visibleOf ((addWidget [CanvasItem.widget compassW] WType.compass 9 400 300).getD idx default)
        = some (decide (visibleOf ([CanvasItem.widget compassW].getD idx default) = some false))) :=
  addWidget_singleton [CanvasItem.widget compassW] WType.compass 9 400 300
    (Or.inr (Or.inr (Or.inr rfl)))

/-- C10: A text widget created by the toolbar's text tool is appended with
its `text` property absent, and the text renderer draws nothing for a widget
whose text is absent or empty, so the freshly created text widget is
invisible on the canvas until some other path sets its text. -/
theorem text_widget_invisible (items : List CanvasItem) (newId : ℕ) (cx cy : ℝ) :
    (newWidget WType.text newId cx cy).text = none ∧
    addWidget items WType.text newId cx cy
      = deselectAll items ++ [CanvasItem.widget (newWidget WType.text newId cx cy)] ∧
    drawTextWidget (newWidget WType.text newId cx cy) = none ∧
    (∀ t : Widget, t.text = none ∨ t.text = some "" → drawTextWidget t = none) := by
  refine ⟨rfl, ?_, rfl, ?_⟩
  · unfold addWidget
    rw [if_neg (by simp)]
    rfl
  · rintro t (h | h) <;> simp [drawTextWidget, h]

/-! ## Interaction state machine (App.tsx lines 21-55, 129-363, 367-430) -/

/-- The tool modes of `types.ts` (`ToolMode`). -/
inductive ToolMode
  | select
  | pen
  | eraser
  | text
  | ruler
  | protractor
  | compass
  | triangle
deriving DecidableEq

/-- The transient drag kinds (App.tsx line 52, `dragType`). -/
inductive DragType
  | move
  | rotate
  | compass_arc
deriving DecidableEq

/-- The interaction-relevant application state: tool mode, stroke settings,
snap flag, the item store, the single-slot in-progress stroke
(`currentStroke`, App.tsx line 27) and the interaction refs of lines 51-55. -/
structure AppState where
  mode : ToolMode
  color : String
  width : ℝ
  strokeStyle : StrokeStyle
  snap : Bool
  items : List CanvasItem
  currentStroke : Option Stroke
  isDragging : Bool
  dragType : Option DragType
  lastPos : Point
  selectedItemId : Option ℕ
  compassPivot : Option Point

/-- The fresh stroke literal of App.tsx lines 156-163 and 193-200:
`{ id: uuidv4(), type: 'stroke', points: [p], color, width, strokeStyle }`
with the current tool settings. -/
def mkStroke (newId : ℕ) (p : Point) (st : AppState) : Stroke :=
  { id := newId, points := [p], color := st.color, width := st.width,
    strokeStyle := some st.strokeStyle }

/-- `setCurrentStroke(prev => prev ? { ...prev, points: [...prev.points, p] }
: null)` (App.tsx lines 277, 305). -/
def appendPoint (os : Option Stroke) (p : Point) : Option Stroke :=
  os.map (fun s => { s with points := s.points ++ [p] })

/-- `prev.map(item => item.id === sel ? ...widget update... : item)` — the
shape shared by the compass-arc, rotate and move store updates of
`handleMouseMove` and by `handleWheel`: the matching widget is rewritten by
`f`, everything else (including any stroke, which the TS spread would leave
with its points intact) is unchanged. -/
noncomputable def updateById (sel : ℕ) (f : Widget → Widget) (items : List CanvasItem) :
    List CanvasItem :=
  items.map (fun item =>
    if itemId item = sel then
      match item with
      | CanvasItem.stroke s => CanvasItem.stroke s
      | CanvasItem.widget w => CanvasItem.widget (f w)
    else item)

/-- `handleMouseDown` (App.tsx lines 129-211).  `newId` models the fresh
uuid minted for a stroke started here.  The pen branch's snap applies to the
raw cursor before the stroke starts and before `lastPos` is recorded. -/
noncomputable def handleMouseDown (st : AppState) (pos : Point) (isRight : Bool)
    (newId : ℕ) : AppState :=
  let st1 :=
    match hitTest pos.x pos.y st.items with
    | some clicked =>
      let stSel := { st with selectedItemId := some (itemId clicked),
                             items := selectOnly st.items (itemId clicked) }
      if isRight then
        match clicked with
        | CanvasItem.widget w =>
          if w.type = WType.compass then
            { stSel with dragType := some DragType.compass_arc,
                         compassPivot := some (getCompassPoints w).needle,
                         currentStroke := some (mkStroke newId (getCompassPoints w).pencil st) }
          else { stSel with dragType := some DragType.rotate }
        | CanvasItem.stroke _ => { stSel with dragType := some DragType.rotate }
      else
        if st.mode = ToolMode.select then { stSel with dragType := some DragType.move }
        else stSel
    | none =>
      if st.mode = ToolMode.select then
        { st with selectedItemId := none, items := deselectAll st.items, dragType := none }
      else st
  let effPos :=
    if isRight = false ∧ st.mode = ToolMode.pen ∧ st.snap = true then
      match getSnapPoint pos.x pos.y st.items 20 with
      | some sp => sp
      | none => pos
    else pos
  let st2 :=
    if isRight = false ∧ st.mode = ToolMode.pen then
      { st1 with currentStroke := some (mkStroke newId effPos st), dragType := none }
    else st1
  let st3 := if st.mode = ToolMode.eraser then { st2 with dragType := none } else st2
  { st3 with lastPos := effPos, isDragging := true }

/-- `handleMouseMove` (App.tsx lines 213-331), with the TS else-if chain:
compass arc, rotate, pen, move, eraser.  The compass branch recomputes the
pencil point from the pre-update store (`items.find`, line 257), exactly as
the source does. -/
noncomputable def handleMouseMove (st : AppState) (pos : Point) : AppState :=
  if st.isDragging = false then st
  else
    match st.dragType, st.selectedItemId, st.compassPivot with
    | some DragType.compass_arc, some sel, some pivot =>
      let deltaAngle := atan2deg (pos.y - pivot.y) (pos.x - pivot.x)
        - atan2deg (st.lastPos.y - pivot.y) (st.lastPos.x - pivot.x)
      let items2 := updateById sel (fun w => compassRotateWidget w pivot deltaAngle) st.items
      let stroke2 :=
        match st.items.find? (fun i => decide (itemId i = sel)) with
        | some (CanvasItem.widget w) =>
          appendPoint st.currentStroke (compassPencilPoint w pivot deltaAngle)
        | _ => st.currentStroke
      { st with items := items2, currentStroke := stroke2, lastPos := pos }
    | some DragType.rotate, some sel, _ =>
      let f : Widget → Widget := fun w => { w with angle := w.angle + (pos.y - st.lastPos.y) * 0.5 }
      { st with items := updateById sel f st.items, lastPos := pos }
    | _, _, _ =>
      if st.mode = ToolMode.pen ∧ st.currentStroke.isSome = true then
        let effPos :=
          if st.snap then
            match getSnapPoint pos.x pos.y st.items 20 with
            | some sp => sp
            | none => pos
          else pos
        { st with currentStroke := appendPoint st.currentStroke effPos, lastPos := effPos }
      else if st.dragType = some DragType.move ∧ st.selectedItemId.isSome = true then
        match st.selectedItemId with
        | some sel =>
          let f : Widget → Widget := fun w =>
            { w with x := w.x + (pos.x - st.lastPos.x), y := w.y + (pos.y - st.lastPos.y) }
          { st with items := updateById sel f st.items, lastPos := pos }
        | none => { st with lastPos := pos }
      else if st.mode = ToolMode.eraser then
        { st with items := eraseAt st.items pos.x pos.y, lastPos := pos }
      else { st with lastPos := pos }

/-- `handleMouseUp` (App.tsx lines 333-349): finalize the in-progress stroke
into the store when the drag was a compass arc or (else-if) the mode is pen —
the two TS branches share the same body — then clear the drag kind and the
pivot lock. -/
noncomputable def handleMouseUp (st : AppState) : AppState :=
  let base := { st with isDragging := false, dragType := none, compassPivot := none }
  match st.currentStroke with
  | some s =>
    if st.dragType = some DragType.compass_arc ∨ st.mode = ToolMode.pen then
      { base with items := st.items ++ [CanvasItem.stroke s], currentStroke := none }
    else base
  | none => base

/-- `handleWheel` (App.tsx lines 352-363): rotate the selected non-stroke
item by `Math.sign(deltaY) * 5` degrees (`w.angle || 0` is `w.angle`, the
model's `angle` being a total field). -/
noncomputable def handleWheel (st : AppState) (deltaY : ℝ) : AppState :=
  match st.selectedItemId with
  | some sel =>
    let f : Widget → Widget := fun w => { w with angle := w.angle + Real.sign deltaY * 5 }
    { st with items := updateById sel f st.items }
  | none => st

/-- The user interactions that touch the item store or the in-progress
stroke.  `toolButton` is the toolbar's `addWidget`, the `layer*` events are
the layer-panel actions, `pasteImage`/`tikzImage` the two image-injection
paths. -/
inductive Event
  | mouseDown (pos : Point) (isRight : Bool) (newId : ℕ)
  | mouseMove (pos : Point)
  | mouseUp
  | wheel (deltaY : ℝ)
  | toolButton (t : WType) (newId : ℕ) (cx cy : ℝ)
  | layerSelect (target : ℕ)
  | layerToggleVisibility (target : ℕ)
  | layerDelete (target : ℕ)
  | clearBoard
  | pasteImage (newId : ℕ) (cx cy : ℝ) (source : String) (iw ih : ℝ)
  | tikzImage (newId : ℕ) (cx cy : ℝ) (source : String) (iw ih : ℝ)

/-- One interaction step of the whiteboard.  (For `toolButton` the
`setMode('select')` and selection-ref side effects of `addWidget` are
omitted: they do not touch the store or the stroke slot; `pasteImage` keeps
the source's `setMode('select')`.) -/
noncomputable def step (st : AppState) : Event → AppState
  | Event.mouseDown pos isRight newId => handleMouseDown st pos isRight newId
  | Event.mouseMove pos => handleMouseMove st pos
  | Event.mouseUp => handleMouseUp st
  | Event.wheel d => handleWheel st d
  | Event.toolButton t newId cx cy =>
      { st with items := addWidget st.items t newId cx cy }
  | Event.layerSelect target =>
      { st with items := selectOnly st.items target, selectedItemId := some target }
  | Event.layerToggleVisibility target =>
      { st with items := toggleVisibilityOp st.items target }
  | Event.layerDelete target =>
      { st with items := deleteItemOp st.items target }
  | Event.clearBoard => { st with items := [] }
  | Event.pasteImage newId cx cy source iw ih =>
      { st with items := appendWidget st.items (pasteWidget newId cx cy source iw ih),
                mode := ToolMode.select }
  | Event.tikzImage newId cx cy source iw ih =>
      { st with items := appendWidget st.items (tikzWidget newId cx cy source iw ih) }

/-! ## Stroke-lifecycle lemmas -/

/-- The strokes currently stored in the item store. -/
def storedStrokes (items : List CanvasItem) : List Stroke :=
  items.filterMap (fun i => match i with
    | CanvasItem.stroke s => some s
    | CanvasItem.widget _ => none)

theorem storedStrokes_cons_stroke (s : Stroke) (items : List CanvasItem) :
    storedStrokes (CanvasItem.stroke s :: items) = s :: storedStrokes items := rfl

theorem storedStrokes_cons_widget (w : Widget) (items : List CanvasItem) :
    storedStrokes (CanvasItem.widget w :: items) = storedStrokes items := rfl

theorem mem_storedStrokes (s : Stroke) (items : List CanvasItem) :
    s ∈ storedStrokes items ↔ CanvasItem.stroke s ∈ items := by
  unfold storedStrokes
  rw [List.mem_filterMap]
  constructor
  · rintro ⟨a, ha, hfa⟩
    cases a with
    | stroke s2 =>
      simp only [Option.some.injEq] at hfa
      cases hfa
      exact ha
    | widget w => cases hfa
  · intro h
    exact ⟨CanvasItem.stroke s, h, rfl⟩

theorem storedStrokes_append (l1 l2 : List CanvasItem) :
    storedStrokes (l1 ++ l2) = storedStrokes l1 ++ storedStrokes l2 :=
  List.filterMap_append l1 l2 _

/-- A per-item update that leaves strokes unchanged and maps widgets to
widgets (every map the handlers apply is of this shape) preserves the stored
strokes exactly. -/
theorem storedStrokes_map (g : CanvasItem → CanvasItem)
    (hs : ∀ s : Stroke, g (CanvasItem.stroke s) = CanvasItem.stroke s)
    (hw : ∀ w : Widget, ∃ w2, g (CanvasItem.widget w) = CanvasItem.widget w2)
    (items : List CanvasItem) :
    storedStrokes (items.map g) = storedStrokes items := by
  induction items with
  | nil => rfl
  | cons i rest ih =>
    cases i with
    | stroke s =>
      rw [List.map_cons, hs s, storedStrokes_cons_stroke, storedStrokes_cons_stroke, ih]
    | widget w =>
      obtain ⟨w2, hw2⟩ := hw w
      rw [List.map_cons, hw2, storedStrokes_cons_widget, storedStrokes_cons_widget, ih]

theorem storedStrokes_deselectAll (items : List CanvasItem) :
    storedStrokes (deselectAll items) = storedStrokes items :=
  storedStrokes_map _ (fun _ => rfl) (fun w => ⟨{ w with selected := false }, rfl⟩) items

theorem storedStrokes_selectOnly (items : List CanvasItem) (target : ℕ) :
    storedStrokes (selectOnly items target) = storedStrokes items :=
  storedStrokes_map _ (fun _ => rfl)
    (fun w => ⟨{ w with selected := decide (itemId (CanvasItem.widget w) = target) }, rfl⟩) items

theorem storedStrokes_toggleAt (items : List CanvasItem) (idx : ℕ) (b : Bool) :
    storedStrokes (toggleAt items idx b) = storedStrokes items := by
  induction items generalizing idx with
  | nil => rfl
  | cons i rest ih =>
    cases idx with
    | zero =>
      show storedStrokes (setVisibleSelected i b :: deselectAll rest) = _
      cases i with
      | stroke s =>
        rw [show setVisibleSelected (CanvasItem.stroke s) b = CanvasItem.stroke s from rfl,
          storedStrokes_cons_stroke, storedStrokes_cons_stroke, storedStrokes_deselectAll]
      | widget w =>
        rw [show setVisibleSelected (CanvasItem.widget w) b
            = CanvasItem.widget { w with visible := some b, selected := b } from rfl,
          storedStrokes_cons_widget, storedStrokes_cons_widget, storedStrokes_deselectAll]
    | succ n =>
      show storedStrokes (setSelected i false :: toggleAt rest n b) = _
      cases i with
      | stroke s =>
        rw [show setSelected (CanvasItem.stroke s) false = CanvasItem.stroke s from rfl,
          storedStrokes_cons_stroke, storedStrokes_cons_stroke, ih n]
      | widget w =>
        rw [show setSelected (CanvasItem.widget w) false
            = CanvasItem.widget { w with selected := false } from rfl,
          storedStrokes_cons_widget, storedStrokes_cons_widget, ih n]

theorem storedStrokes_filter_subset (p : CanvasItem → Bool) (items : List CanvasItem) :
    ∀ s ∈ storedStrokes (items.filter p), s ∈ storedStrokes items := by
  intro s hs
  rw [mem_storedStrokes] at hs ⊢
  exact List.mem_of_mem_filter hs

theorem storedStrokes_createWidget (items : List CanvasItem) (t : WType) (newId : ℕ)
    (cx cy : ℝ) : storedStrokes (createWidget items t newId cx cy) = storedStrokes items := by
  unfold createWidget
  rw [storedStrokes_append, storedStrokes_deselectAll,
    show storedStrokes [CanvasItem.widget (newWidget t newId cx cy)] = [] from rfl,
    List.append_nil]

theorem storedStrokes_addWidget (items : List CanvasItem) (t : WType) (newId : ℕ)
    (cx cy : ℝ) : storedStrokes (addWidget items t newId cx cy) = storedStrokes items := by
  unfold addWidget
  split_ifs
  · cases hfi : findIndex (fun i => isType t i) items with
    | some idx => exact storedStrokes_toggleAt items idx _
    | none => exact storedStrokes_createWidget items t newId cx cy
  · exact storedStrokes_createWidget items t newId cx cy

theorem storedStrokes_appendWidget (items : List CanvasItem) (w : Widget) :
    storedStrokes (appendWidget items w) = storedStrokes items := by
  unfold appendWidget
  rw [storedStrokes_append, show storedStrokes [CanvasItem.widget w] = [] from rfl,
    List.append_nil]

theorem storedStrokes_toggleVisibilityOp (items : List CanvasItem) (target : ℕ) :
    storedStrokes (toggleVisibilityOp items target) = storedStrokes items := by
  unfold toggleVisibilityOp
  apply storedStrokes_map
  · intro s
    by_cases h : itemId (CanvasItem.stroke s) = target <;> simp [h]
  · intro w
    by_cases h : itemId (CanvasItem.widget w) = target
    · exact ⟨{ w with visible := some (match w.visible with | some b => !b | none => true) },
        by simp [h]⟩
    · exact ⟨w, by simp [h]⟩

theorem appendPoint_some (os : Option Stroke) (p : Point) (s : Stroke)
    (h : appendPoint os p = some s) :
    ∃ s0, os = some s0 ∧ s.id = s0.id := by
  cases os with
  | none => cases h
  | some s0 =>
    refine ⟨s0, rfl, ?_⟩
    simp only [appendPoint, Option.map_some', Option.some.injEq] at h
    cases h
    rfl

theorem storedStrokes_updateById (sel : ℕ) (f : Widget → Widget) (items : List CanvasItem) :
    storedStrokes (updateById sel f items) = storedStrokes items := by
  unfold updateById
  apply storedStrokes_map
  · intro s
    by_cases h : itemId (CanvasItem.stroke s) = sel <;> simp [h]
  · intro w
    by_cases h : itemId (CanvasItem.widget w) = sel
    · exact ⟨f w, by simp [h]⟩
    · exact ⟨w, by simp [h]⟩

theorem handleMouseDown_items (st : AppState) (pos : Point) (isRight : Bool) (newId : ℕ) :
    storedStrokes (handleMouseDown st pos isRight newId).items = storedStrokes st.items := by
  unfold handleMouseDown
  cases hht : hitTest pos.x pos.y st.items with
  | some clicked =>
    cases clicked <;> dsimp only <;> split_ifs <;>
      first
        | apply storedStrokes_selectOnly
        | rfl
  | none =>
    dsimp only
    split_ifs <;>
      first
        | apply storedStrokes_deselectAll
        | rfl

theorem handleMouseDown_current (st : AppState) (pos : Point) (isRight : Bool) (newId : ℕ) :
    ∀ s, (handleMouseDown st pos isRight newId).currentStroke = some s →
      s.id = newId ∨ st.currentStroke = some s := by
  unfold handleMouseDown
  cases hht : hitTest pos.x pos.y st.items with
  | some clicked =>
    cases clicked <;> dsimp only <;> split_ifs <;> intro s hs <;>
      first
        | (left; cases hs; rfl)
        | (right; exact hs)
  | none =>
    dsimp only
    split_ifs <;> intro s hs <;>
      first
        | (left; cases hs; rfl)
        | (right; exact hs)

theorem storedStrokes_eraseAt_subset (items : List CanvasItem) (x y : ℝ) :
    ∀ s ∈ storedStrokes (eraseAt items x y), s ∈ storedStrokes items := by
  intro s hs
  unfold eraseAt at hs
  exact storedStrokes_filter_subset _ _ s hs

theorem handleMouseMove_items (st : AppState) (pos : Point) :
    ∀ s ∈ storedStrokes (handleMouseMove st pos).items, s ∈ storedStrokes st.items := by
  intro s hs
  unfold handleMouseMove at hs
  split at hs
  · exact hs
  · split at hs
    · -- compass arc
      dsimp only at hs
      rw [storedStrokes_updateById] at hs
      exact hs
    · -- rotate
      dsimp only at hs
      rw [storedStrokes_updateById] at hs
      exact hs
    · -- pen / move / eraser / other
      split_ifs at hs <;> (try dsimp only at hs) <;>
        first
          | exact hs
          | (split at hs <;> (try dsimp only at hs) <;>
               first
                 | (rw [storedStrokes_updateById] at hs; exact hs)
                 | exact hs)
          | exact storedStrokes_eraseAt_subset _ _ _ s hs

theorem handleMouseMove_current (st : AppState) (pos : Point) :
    ∀ s, (handleMouseMove st pos).currentStroke = some s →
      ∃ s0, st.currentStroke = some s0 ∧ s.id = s0.id := by
  intro s hs
  unfold handleMouseMove at hs
  split at hs
  · exact ⟨s, hs, rfl⟩
  · split at hs
    · -- compass arc
      dsimp only at hs
      split at hs
      · rcases appendPoint_some _ _ _ hs with ⟨s0, h1, h2⟩
        exact ⟨s0, h1, h2⟩
      · exact ⟨s, hs, rfl⟩
    · dsimp only at hs
      exact ⟨s, hs, rfl⟩
    · split_ifs at hs
      · dsimp only at hs
        rcases appendPoint_some _ _ _ hs with ⟨s0, h1, h2⟩
        exact ⟨s0, h1, h2⟩
      · dsimp only at hs
        rcases appendPoint_some _ _ _ hs with ⟨s0, h1, h2⟩
        exact ⟨s0, h1, h2⟩
      · split at hs <;> (try dsimp only at hs) <;> exact ⟨s, hs, rfl⟩
      · dsimp only at hs
        exact ⟨s, hs, rfl⟩
      · dsimp only at hs
        exact ⟨s, hs, rfl⟩

theorem handleMouseUp_spec (st : AppState) :
    (∀ s, st.currentStroke = some s →
      (st.dragType = some DragType.compass_arc ∨ st.mode = ToolMode.pen) →
      (handleMouseUp st).items = st.items ++ [CanvasItem.stroke s] ∧
      (handleMouseUp st).currentStroke = none) ∧
    ((handleMouseUp st).items = st.items ∧
        (handleMouseUp st).currentStroke = st.currentStroke ∨
      ∃ s, st.currentStroke = some s ∧
        (handleMouseUp st).items = st.items ++ [CanvasItem.stroke s] ∧
        (handleMouseUp st).currentStroke = none) := by
  unfold handleMouseUp
  cases hcs : st.currentStroke with
  | none =>
    refine ⟨fun s hs => (absurd hs (by simp)), Or.inl ⟨rfl, ?_⟩⟩
    simpa using hcs.symm
  | some s0 =>
    dsimp only
    split_ifs with hcond
    · refine ⟨fun s hs _ => ?_, Or.inr ⟨s0, rfl, rfl, rfl⟩⟩
      cases hs
      exact ⟨rfl, rfl⟩
    · refine ⟨fun s hs hk => absurd hk hcond, Or.inl ⟨rfl, ?_⟩⟩
      simpa using hcs.symm

theorem handleWheel_items (st : AppState) (deltaY : ℝ) :
    storedStrokes (handleWheel st deltaY).items = storedStrokes st.items := by
  unfold handleWheel
  cases st.selectedItemId with
  | none => rfl
  | some sel => exact storedStrokes_updateById sel _ st.items

theorem handleWheel_current (st : AppState) (deltaY : ℝ) :
    (handleWheel st deltaY).currentStroke = st.currentStroke := by
  unfold handleWheel
  cases st.selectedItemId <;> rfl

theorem storedStrokes_deleteItemOp_subset (items : List CanvasItem) (target : ℕ) :
    ∀ s ∈ storedStrokes (deleteItemOp items target), s ∈ storedStrokes items := by
  intro s hs
  unfold deleteItemOp at hs
  exact storedStrokes_filter_subset _ _ s hs

/-- C9: The in-progress stroke is never an element of the item store while
drawing is in progress (its fresh id differs from every stored stroke's, an
invariant every interaction step preserves); it is appended to the store as
one whole item exactly once at pointer-up from a `compass_arc` drag or in
pen mode, clearing the single slot; and no interaction rewrites a stored
stroke: every stroke stored after a step was already stored before it or is
the just-finalized in-progress stroke. -/
theorem stroke_lifecycle (st : AppState) (e : Event)
    (hfresh : ∀ s, st.currentStroke = some s →
      ∀ s2 ∈ storedStrokes st.items, s2.id ≠ s.id)
    (hev : ∀ pos isRight newId, e = Event.mouseDown pos isRight newId →
      ∀ s2 ∈ storedStrokes st.items, s2.id ≠ newId) :
    (∀ s, st.currentStroke = some s → CanvasItem.stroke s ∉ st.items) ∧
    (∀ s, (step st e).currentStroke = some s →
      ∀ s2 ∈ storedStrokes (step st e).items, s2.id ≠ s.id) ∧
    (∀ s ∈ storedStrokes (step st e).items,
      s ∈ storedStrokes st.items ∨ st.currentStroke = some s) ∧
    (e = Event.mouseUp → ∀ s, st.currentStroke = some s →
      (st.dragType = some DragType.compass_arc ∨ st.mode = ToolMode.pen) →
      (step st e).items = st.items ++ [CanvasItem.stroke s] ∧
      (step st e).currentStroke = none) := by
  have hnotin : ∀ s, st.currentStroke = some s → CanvasItem.stroke s ∉ st.items := by
    intro s hcs hmem
    exact hfresh s hcs s ((mem_storedStrokes s st.items).mpr hmem) rfl
  refine ⟨hnotin, ?_⟩
  cases e with
  | mouseDown pos isRight newId =>
    refine ⟨?_, ?_, fun hcontra => absurd hcontra (by simp)⟩
    · intro s hs s2 hs2
      dsimp only [step] at hs hs2
      rw [handleMouseDown_items] at hs2
      rcases handleMouseDown_current st pos isRight newId s hs with hid | hold
      · rw [hid]
        exact hev pos isRight newId rfl s2 hs2
      · exact hfresh s hold s2 hs2
    · intro s hs
      dsimp only [step] at hs
      rw [handleMouseDown_items] at hs
      exact Or.inl hs
  | mouseMove pos =>
    refine ⟨?_, ?_, fun hcontra => absurd hcontra (by simp)⟩
    · intro s hs s2 hs2
      dsimp only [step] at hs hs2
      obtain ⟨s0, h1, h2⟩ := handleMouseMove_current st pos s hs
      rw [h2]
      exact hfresh s0 h1 s2 (handleMouseMove_items st pos s2 hs2)
    · intro s hs
      dsimp only [step] at hs
      exact Or.inl (handleMouseMove_items st pos s hs)
  | mouseUp =>
    obtain ⟨hfin, hcases⟩ := handleMouseUp_spec st
    refine ⟨?_, ?_, ?_⟩
    · intro s hs s2 hs2
      dsimp only [step] at hs hs2
      rcases hcases with ⟨hitems, hcur⟩ | ⟨s0, hs0, hitems, hcur⟩
      · rw [hcur] at hs
        rw [hitems] at hs2
        exact hfresh s hs s2 hs2
      · rw [hcur] at hs
        cases hs
    · intro s hs
      dsimp only [step] at hs
      rcases hcases with ⟨hitems, hcur⟩ | ⟨s0, hs0, hitems, hcur⟩
      · rw [hitems] at hs
        exact Or.inl hs
      · rw [hitems, storedStrokes_append] at hs
        rcases List.mem_append.mp hs with hl | hr
        · exact Or.inl hl
        · rw [show storedStrokes [CanvasItem.stroke s0] = [s0] from rfl] at hr
          rcases List.mem_singleton.mp hr with rfl
          exact Or.inr hs0
    · intro _ s hs hk
      dsimp only [step]
      exact hfin s hs hk
  | wheel d =>
    refine ⟨?_, ?_, fun hcontra => absurd hcontra (by simp)⟩
    · intro s hs s2 hs2
      dsimp only [step] at hs hs2
      rw [handleWheel_current] at hs
      rw [handleWheel_items] at hs2
      exact hfresh s hs s2 hs2
    · intro s hs
      dsimp only [step] at hs
      rw [handleWheel_items] at hs
      exact Or.inl hs
  | toolButton t newId cx cy =>
    refine ⟨?_, ?_, fun hcontra => absurd hcontra (by simp)⟩
    · intro s hs s2 hs2
      dsimp only [step] at hs hs2
      rw [storedStrokes_addWidget] at hs2
      exact hfresh s hs s2 hs2
    · intro s hs
      dsimp only [step] at hs
      rw [storedStrokes_addWidget] at hs
      exact Or.inl hs
  | layerSelect target =>
    refine ⟨?_, ?_, fun hcontra => absurd hcontra (by simp)⟩
    · intro s hs s2 hs2
      dsimp only [step] at hs hs2
      rw [storedStrokes_selectOnly] at hs2
      exact hfresh s hs s2 hs2
    · intro s hs
      dsimp only [step] at hs
      rw [storedStrokes_selectOnly] at hs
      exact Or.inl hs
  | layerToggleVisibility target =>
    refine ⟨?_, ?_, fun hcontra => absurd hcontra (by simp)⟩
    · intro s hs s2 hs2
      dsimp only [step] at hs hs2
      rw [storedStrokes_toggleVisibilityOp] at hs2
      exact hfresh s hs s2 hs2
    · intro s hs
      dsimp only [step] at hs
      rw [storedStrokes_toggleVisibilityOp] at hs
      exact Or.inl hs
  | layerDelete target =>
    refine ⟨?_, ?_, fun hcontra => absurd hcontra (by simp)⟩
    · intro s hs s2 hs2
      dsimp only [step] at hs hs2
      exact hfresh s hs s2 (storedStrokes_deleteItemOp_subset st.items target s2 hs2)
    · intro s hs
      dsimp only [step] at hs
      exact Or.inl (storedStrokes_deleteItemOp_subset st.items target s hs)
  | clearBoard =>
    refine ⟨?_, ?_, fun hcontra => absurd hcontra (by simp)⟩
    · intro s hs s2 hs2
      dsimp only [step] at hs2
      cases hs2
    · intro s hs
      dsimp only [step] at hs
      cases hs
  | pasteImage newId cx cy source iw ih =>
    refine ⟨?_, ?_, fun hcontra => absurd hcontra (by simp)⟩
    · intro s hs s2 hs2
      dsimp only [step] at hs hs2
      rw [storedStrokes_appendWidget] at hs2
      exact hfresh s hs s2 hs2
    · intro s hs
      dsimp only [step] at hs
      rw [storedStrokes_appendWidget] at hs
      exact Or.inl hs
  | tikzImage newId cx cy source iw ih =>
    refine ⟨?_, ?_, fun hcontra => absurd hcontra (by simp)⟩
    · intro s hs s2 hs2
      dsimp only [step] at hs hs2
      rw [storedStrokes_appendWidget] at hs2
      exact hfresh s hs s2 hs2
    · intro s hs
      dsimp only [step] at hs
      rw [storedStrokes_appendWidget] at hs
      exact Or.inl hs

/-- A concrete in-progress compass-arc stroke and state for the witness. -/
def stroke5 : Stroke :=
  { id := 5, points := [⟨0, 0⟩], color := "#000000", width := 4,
    strokeStyle := some StrokeStyle.solid }

/-- A concrete state: empty store, compass-arc drag in progress. -/
def st0 : AppState :=
  { mode := ToolMode.select, color := "#000000", width := 4,
    strokeStyle := StrokeStyle.solid, snap := true, items := [],
    currentStroke := some stroke5, isDragging := true,
    dragType := some DragType.compass_arc, lastPos := ⟨0, 0⟩,
    selectedItemId := some 3, compassPivot := some ⟨0, 0⟩ }

/-- Witness for C9 at a concrete input: pointer-up during a compass-arc drag
over an empty store finalizes the in-progress stroke. -/
theorem stroke_lifecycle_witness :
    (∀ s, st0.currentStroke = some s → CanvasItem.stroke s ∉ st0.items) ∧
    (∀ s, (step st0 Event.mouseUp).currentStroke = some s →
      ∀ s2 ∈ storedStrokes (step st0 Event.mouseUp).items, s2.id ≠ s.id) ∧
    (∀ s ∈ storedStrokes (step st0 Event.mouseUp).items,
      s ∈ storedStrokes st0.items ∨ st0.currentStroke = some s) ∧
    (Event.mouseUp = Event.mouseUp → ∀ s, st0.currentStroke = some s →
      (st0.dragType = some DragType.compass_arc ∨ st0.mode = ToolMode.pen) →
      (step st0 Event.mouseUp).items = st0.items ++ [CanvasItem.stroke s] ∧
      (step st0 Event.mouseUp).currentStroke = none) :=
  stroke_lifecycle st0 Event.mouseUp
    (by intro s hs s2 hs2; simp [st0, storedStrokes] at hs2)
    (fun pos isRight newId h => absurd h (by simp))

end TeachOnline
